import Mathlib

/-!
Shallow embedding of the MCP sync manager (`src/mcpSync.ts`) and the
security manager (`src/securityManager.ts`) of the claude-code-chat
extension, together with theorems checking the specified properties of
`setSyncAll`, `refreshCLIServers`, `toggleServer`, `getAllServers`,
`saveSyncState`, `validatePath`, `requestPermission`, `updateSettings`
and `clearAllPermissions`.  Timestamps are modelled as naturals, JS
records as association lists, and the VS Code storage facility as an
explicit blob that can be told to fail.
-/

/-- Decidable equality for `Except`, used to evaluate witnesses on
concrete inputs. -/
instance {ε α : Type} [DecidableEq ε] [DecidableEq α] : DecidableEq (Except ε α) := fun a b =>
  match a, b with
  | .ok x, .ok y =>
    if h : x = y then isTrue (congrArg Except.ok h)
    else isFalse (fun hh => h (Except.ok.inj hh))
  | .error x, .error y =>
    if h : x = y then isTrue (congrArg Except.error h)
    else isFalse (fun hh => h (Except.error.inj hh))
  | .ok _, .error _ => isFalse (fun hh => Except.noConfusion hh)
  | .error _, .ok _ => isFalse (fun hh => Except.noConfusion hh)

namespace MCPSync

/-- Source tag of an MCP server entry (`'cli' | 'extension' | 'synced'`). -/
inductive Source where
  | cli
  | extension
  | synced
deriving DecidableEq, Repr

/-- Per-server launch configuration from the CLI config file
(`{command, args?, env?}`). -/
structure ServerConfig where
  command : String
  args : List String
  env : List (String × String)
deriving DecidableEq, Repr

/-- An MCP server entry (`MCPServer` in `types/mcp.ts`). -/
structure MCPServer where
  name : String
  command : String
  args : List String
  env : List (String × String)
  source : Source
  isActive : Bool
deriving DecidableEq, Repr

/-- Per-server record stored in `MCPSyncState.serverStates`. -/
structure ServerState where
  active : Bool
  lastUsed : Nat
  syncEnabled : Bool
deriving DecidableEq, Repr

/-- Persisted sync state (`MCPSyncState` in `types/mcp.ts`). -/
structure MCPSyncState where
  version : String
  activeCliServers : List String
  syncAll : Bool
  lastSyncTime : Nat
  serverStates : List (String × ServerState)
  cliConfigHash : String
deriving DecidableEq, Repr

/-- The CLI configuration file contents (`ClaudeCLIConfig`): an optional
record of server configurations, modelled as an association list. -/
structure ClaudeCLIConfig where
  mcpServers : Option (List (String × ServerConfig))
deriving DecidableEq, Repr

/-- The VS Code `workspaceState` storage as seen by the sync manager: the
stored blob plus a flag saying whether `update` calls fail (models a
storage-layer failure). -/
structure Storage where
  blob : Option MCPSyncState
  failing : Bool
deriving DecidableEq, Repr

/-- A `context.workspaceState.update('mcpSyncState', v)` call: rejects
exactly when the storage layer is failing. -/
def Storage.update (st : Storage) (v : MCPSyncState) : Except String Storage :=
  if st.failing then .error "storage failure" else .ok { st with blob := some v }

/-- In-memory fields of `MCPSyncManager`. -/
structure ManagerState where
  syncState : Option MCPSyncState
  cliServers : List MCPServer
  extensionServers : List MCPServer
  storage : Storage
deriving DecidableEq, Repr

/-- JS object key assignment `o[k] = v` on an association list: replaces
the value at an existing key in place, otherwise appends. -/
def assocSet (l : List (String × ServerState)) (k : String) (v : ServerState) :
    List (String × ServerState) :=
  if l.any (fun p => p.1 == k) then
    l.map (fun p => if p.1 == k then (k, v) else p)
  else l ++ [(k, v)]

/-- `MCPSyncManager.saveSyncState`: no-op without a sync state; stamps
`lastSyncTime`, then tries to persist; a storage error is caught and
logged (`console.error`), never rethrown. -/
def saveSyncState (now : Nat) (m : ManagerState) : ManagerState :=
  match m.syncState with
  | none => m
  | some ss =>
    let ss' := { ss with lastSyncTime := now }
    let m' := { m with syncState := some ss' }
    match m'.storage.update ss' with
    | .ok st => { m' with storage := st }
    | .error _ => m'

/-- The default sync state created by the sync-state initializer. -/
def defaultSyncState (now : Nat) : MCPSyncState :=
  { version := "1.0.7"
    activeCliServers := []
    syncAll := false
    lastSyncTime := now
    serverStates := []
    cliConfigHash := "" }

/-- The sync-state initializer of `MCPSyncManager` (source name
`initializeSyncState`): installs the default state and saves it. -/
def initSyncState (now : Nat) (m : ManagerState) : ManagerState :=
  saveSyncState now { m with syncState := some (defaultSyncState now) }

/-- `MCPSyncManager.getServerActiveState`. -/
def getServerActiveState (syncState : Option MCPSyncState) (serverName : String) : Bool :=
  match syncState with
  | none => false
  | some ss => if ss.syncAll then true else ss.activeCliServers.contains serverName

/-- `this.cliServers.find(s => s.name === serverName)` followed by a
mutation of the found server: updates the first entry with the given
name, if any. -/
def updateFirstIsActive : List MCPServer → String → Bool → List MCPServer
  | [], _, _ => []
  | s :: rest, n, b =>
    if s.name == n then { s with isActive := b } :: rest
    else s :: updateFirstIsActive rest n b

/-- `MCPSyncManager.toggleServer`.  The `Except` channel models the async
method's rejection path; no branch of the body rejects, because
`saveSyncState` catches persistence errors internally. -/
def toggleServer (now : Nat) (serverName : String) (isActive : Bool) (m : ManagerState) :
    Except String ManagerState :=
  let m' := if m.syncState.isNone then initSyncState now m else m
  let ss := m'.syncState.getD (defaultSyncState now)
  let active' :=
    if isActive then
      if ss.activeCliServers.contains serverName then ss.activeCliServers
      else ss.activeCliServers ++ [serverName]
    else ss.activeCliServers.filter (fun n => n != serverName)
  let states' := assocSet ss.serverStates serverName ⟨isActive, now, true⟩
  let servers' := updateFirstIsActive m'.cliServers serverName isActive
  .ok (saveSyncState now { m' with
    syncState := some { ss with activeCliServers := active', serverStates := states' }
    cliServers := servers' })

/-- `MCPSyncManager.setSyncAll`.  When enabling, overwrites
`activeCliServers` with the full CLI name list and marks every CLI server
active; when disabling, sets each CLI server's flag from the current
`activeCliServers` list. -/
def setSyncAll (now : Nat) (enabled : Bool) (m : ManagerState) : Except String ManagerState :=
  let m' := if m.syncState.isNone then initSyncState now m else m
  let ss := m'.syncState.getD (defaultSyncState now)
  let ss' := { ss with syncAll := enabled }
  if enabled then
    let ss'' := { ss' with activeCliServers := m'.cliServers.map (fun (s : MCPServer) => s.name) }
    let servers' := m'.cliServers.map (fun s => { s with isActive := true })
    let states' := m'.cliServers.foldl
      (fun acc s => assocSet acc s.name ⟨true, now, true⟩) ss''.serverStates
    .ok (saveSyncState now { m' with
      syncState := some { ss'' with serverStates := states' }
      cliServers := servers' })
  else
    let servers' := m'.cliServers.map
      (fun s => { s with isActive := ss'.activeCliServers.contains s.name })
    .ok (saveSyncState now { m' with syncState := some ss', cliServers := servers' })

/-- Result of reading and JSON-parsing the CLI config file: `none` when
`fs.existsSync` is false; `some (.error ())` when `JSON.parse` throws;
`some (.ok c)` when the file parses to `c`. -/
abbrev CLIFile := Option (Except Unit ClaudeCLIConfig)

/-- Body of the `try` block of `MCPSyncManager.readCLIConfig`. -/
def readCLIConfigAttempt (file : CLIFile) : Except Unit (Option ClaudeCLIConfig) :=
  match file with
  | none => .ok none
  | some (.error e) => .error e
  | some (.ok c) => .ok (some c)

/-- `MCPSyncManager.readCLIConfig`: the `catch` turns any read or parse
failure into `null`. -/
def readCLIConfig (file : CLIFile) : Option ClaudeCLIConfig :=
  match readCLIConfigAttempt file with
  | .ok c => c
  | .error _ => none

/-- Serialization of one server configuration, standing in for its
`JSON.stringify` fragment. -/
def serializeServerConfig (sc : ServerConfig) : String :=
  "\x7bcmd:" ++ sc.command ++ ",args:[" ++ String.intercalate "," sc.args ++ "],env:["
    ++ String.intercalate "," (sc.env.map (fun p => p.1 ++ "=" ++ p.2)) ++ "]\x7d"

/-- `MCPSyncManager.calculateConfigHash`: an md5 digest of the serialized
`mcpServers` record.  The digest is modelled as the serialized text
itself: the code only ever compares digests of serialized records for
equality, and equal records serialize and hash equally. -/
def calculateConfigHash (config : ClaudeCLIConfig) : String :=
  String.intercalate ";" ((config.mcpServers.getD []).map
    (fun p => p.1 ++ ":" ++ serializeServerConfig p.2))

/-- Result of a refresh: the new manager state plus a ghost flag recording
whether the in-memory CLI server list was rebuilt by the
`Object.entries(...).map(...)` pass (that pass also recomputes every
per-entry active flag via `getServerActiveState`). -/
structure RefreshOut where
  state : ManagerState
  rebuiltList : Bool
deriving DecidableEq, Repr

/-- One CLI server entry as built by the rebuild pass of
`refreshCLIServers`. -/
def buildCliServer (syncState : Option MCPSyncState) (p : String × ServerConfig) : MCPServer :=
  { name := p.1, command := p.2.command, args := p.2.args, env := p.2.env
    source := Source.cli, isActive := getServerActiveState syncState p.1 }

/-- `MCPSyncManager.refreshCLIServers`.  The hash comparison (`hasChanged`
in the source) only selects a log message; the server list is rebuilt
unconditionally whenever the config carries an `mcpServers` record.  The
`Except` channel models the async method's rejection path; it is never
used. -/
def refreshCLIServers (now : Nat) (file : CLIFile) (m : ManagerState) :
    Except String RefreshOut :=
  match readCLIConfig file with
  | none => .ok ⟨{ m with cliServers := [] }, false⟩
  | some config =>
    match config.mcpServers with
    | none => .ok ⟨{ m with cliServers := [] }, false⟩
    | some servers =>
      let newHash := calculateConfigHash config
      let newList := servers.map (buildCliServer m.syncState)
      let m' := { m with cliServers := newList }
      let m'' :=
        match m'.syncState with
        | some ss =>
          saveSyncState now { m' with syncState := some { ss with cliConfigHash := newHash } }
        | none => m'
      .ok ⟨m'', true⟩

/-- `MCPSyncManager.hasConflictWithExtension`. -/
def hasConflictWithExtension (m : ManagerState) (serverName : String) : Bool :=
  m.extensionServers.any (fun s => s.name == serverName)

/-- A row of the unified view (`MCPServerStatus` in `types/mcp.ts`). -/
structure MCPServerStatus where
  name : String
  isActive : Bool
  source : Source
  hasConflict : Bool
  lastSeen : Option Nat
deriving DecidableEq, Repr

/-- `this.syncState?.serverStates[name]?.lastUsed`. -/
def lookupLastSeen (syncState : Option MCPSyncState) (serverName : String) : Option Nat :=
  match syncState with
  | none => none
  | some ss => (ss.serverStates.find? (fun p => p.1 == serverName)).map (fun p => p.2.lastUsed)

/-- The status row pushed for a CLI server by `getAllServers`. -/
def cliStatus (m : ManagerState) (s : MCPServer) : MCPServerStatus :=
  { name := s.name, isActive := s.isActive, source := Source.cli
    hasConflict := hasConflictWithExtension m s.name
    lastSeen := lookupLastSeen m.syncState s.name }

/-- One extension-server step of `getAllServers`: skip the server when a
row with its name was already pushed, else append its row. -/
def extStep (m : ManagerState) (acc : List MCPServerStatus) (s : MCPServer) :
    List MCPServerStatus :=
  if (acc.find? (fun t => t.name == s.name)).isSome then acc
  else acc ++ [{ name := s.name, isActive := s.isActive, source := Source.extension
                 hasConflict := false, lastSeen := lookupLastSeen m.syncState s.name }]

/-- `MCPSyncManager.getAllServers`: CLI rows first, then extension rows
that do not repeat an already-present name. -/
def getAllServers (m : ManagerState) : List MCPServerStatus :=
  m.extensionServers.foldl (extStep m) (m.cliServers.map (cliStatus m))

end MCPSync

namespace Security

/-- Node type derived from `fs.promises.lstat` in `validatePath`. -/
inductive FileType where
  | file
  | directory
  | symlink
  | other
deriving DecidableEq, Repr

/-- `PermissionType`: `'read' | 'write' | 'execute'`. -/
inductive PermissionType where
  | read
  | write
  | execute
deriving DecidableEq, Repr

/-- Rendering of a permission type, used by `getPermissionKey`. -/
def PermissionType.str : PermissionType → String
  | .read => "read"
  | .write => "write"
  | .execute => "execute"

/-- `PermissionScope`: `'once' | 'session' | 'workspace' | 'global'`. -/
inductive PermissionScope where
  | once
  | session
  | workspace
  | global
deriving DecidableEq, Repr

/-- `SecurityLevel`: the five policy tiers. -/
inductive SecurityLevel where
  | workspaceOnly
  | contextual
  | sessionOverride
  | workspaceOverride
  | dangerMode
deriving DecidableEq, Repr

/-- `SecuritySettings` from `types/security.ts`. -/
structure SecuritySettings where
  permissionLevel : SecurityLevel
  allowedPaths : List String
  deniedPaths : List String
  auditLog : Bool
  sessionTimeout : Nat
  showFilePreview : Bool
  maxPreviewSize : Nat
  autoGrantSafePaths : Bool
deriving DecidableEq, Repr

/-- A standing grant (`SecurityPermission`). -/
structure SecurityPermission where
  filePath : String
  permissionType : PermissionType
  scope : PermissionScope
  expiration : Option Nat
  reason : String
  grantedAt : Nat
  autoGranted : Bool
deriving DecidableEq, Repr

/-- A permission request (`PermissionRequest`). -/
structure PermissionRequest where
  filePath : String
  permissionType : PermissionType
  reason : String
  requestedBy : String
deriving DecidableEq, Repr

/-- `PathValidationResult`; the source field `exists` is called
`pathExists` here because `exists` is reserved in Lean. -/
structure PathValidationResult where
  isValid : Bool
  normalizedPath : String
  pathExists : Bool
  type : Option FileType
  warnings : List String
  inWorkspace : Bool
  matchesAllowedPattern : Option String
  matchesDeniedPattern : Option String
deriving DecidableEq, Repr

/-- The members of `SecurityErrorCodes`. -/
inductive SecurityErrorCode where
  | INVALID_PATH
  | ACCESS_DENIED
  | PERMISSION_EXPIRED
  | UNSAFE_OPERATION
  | USER_DENIED
  | SETTINGS_OVERRIDE
deriving DecidableEq, Repr

/-- The typed `SecurityError` thrown by the manager. -/
structure SecurityError where
  message : String
  code : SecurityErrorCode
  filePath : String
  permissionType : PermissionType
deriving DecidableEq, Repr

/-- The ambient environment of the security manager: home directory and
working directory for path expansion, the lstat view of the filesystem
(`none` when the node does not exist), and the `minimatch` glob matcher
(an external library, modelled abstractly as `glob path pattern`). -/
structure FSEnv where
  homeDir : String
  cwd : String
  lstat : String → Option FileType
  glob : String → String → Bool

/-- JS `s.startsWith(pre)`, kept kernel-reducible by working on character
lists. -/
def strStartsWith (s pre : String) : Bool :=
  pre.toList.isPrefixOf s.toList

/-- Split a character list on a separator character. -/
def splitCharsOn (sep : Char) : List Char → List Char → List (List Char)
  | cur, [] => [cur.reverse]
  | cur, c :: rest =>
    if c == sep then cur.reverse :: splitCharsOn sep [] rest
    else splitCharsOn sep (c :: cur) rest

/-- Split a path on `/`, dropping empty segments. -/
def splitPath (s : String) : List String :=
  ((splitCharsOn '/' [] s.toList).map String.mk).filter (fun seg => seg != "")

/-- Process `.` and `..` segments against a reversed accumulator, as
`path.resolve` does (`..` at the root stays at the root). -/
def resolveSegs : List String → List String → List String
  | acc, [] => acc.reverse
  | acc, "." :: rest => resolveSegs acc rest
  | acc, ".." :: rest => resolveSegs acc.tail rest
  | acc, seg :: rest => resolveSegs (seg :: acc) rest

/-- `path.resolve` on POSIX: prepends the working directory to relative
paths and normalizes `.`, `..` and repeated separators. -/
def pathResolve (cwd : String) (p : String) : String :=
  let s := if strStartsWith p "/" then p else cwd ++ "/" ++ p
  "/" ++ String.intercalate "/" (resolveSegs [] (splitPath s))

/-- Whether `pat` occurs as a contiguous run inside the character list. -/
def charsContain (pat : List Char) : List Char → Bool
  | [] => pat.isEmpty
  | c :: rest => pat.isPrefixOf (c :: rest) || charsContain pat rest

/-- `s.includes(pat)` from JS. -/
def strContains (s pat : String) : Bool :=
  charsContain pat.toList s.toList

/-- The test of the regex `[<>:"|?*\x00-\x1f]` on one character. -/
def suspiciousChar (c : Char) : Bool :=
  c == '<' || c == '>' || c == ':' || c == '"' || c == '|' || c == '?' ||
    c == '*' || c.toNat < 32

/-- Whether the suspicious-character regex matches anywhere in `s`. -/
def hasSuspiciousChars (s : String) : Bool := s.toList.any suspiciousChar

/-- First pattern in the list matching either the normalized or the raw
path (the pattern loops of `validatePath`). -/
def findFirstMatch (glob : String → String → Bool) (patterns : List String)
    (norm raw : String) : Option String :=
  patterns.find? (fun pat => glob norm pat || glob raw pat)

/-- `SecurityManager.validatePath`.  Pure model of the method: `~` is
expanded to the home directory (JS `replace` with a string replaces only
the first occurrence, and the guard ensures it is the leading character),
the path is resolved, warnings are collected for traversal sequences,
suspicious characters, symlinks and irregular nodes, and workspace
membership is a string-prefix test on the normalized path. -/
def validatePath (env : FSEnv) (settings : SecuritySettings) (workspaceRoot : String)
    (filePath : String) : PathValidationResult :=
  let expanded := if strStartsWith filePath "~" then env.homeDir ++ filePath.drop 1 else filePath
  let normalizedPath := pathResolve env.cwd expanded
  let w1 :=
    if strContains filePath ".." || strContains filePath "./" || strContains filePath ".\\" then
      ["Path contains potentially dangerous traversal sequences"]
    else []
  let w2 := if hasSuspiciousChars filePath then ["Path contains suspicious characters"] else []
  let stat := env.lstat normalizedPath
  let w3 :=
    match stat with
    | some FileType.symlink => ["Path is a symbolic link"]
    | some FileType.other => ["Path is not a regular file or directory"]
    | _ => []
  let warnings := w1 ++ w2 ++ w3
  { isValid := warnings.isEmpty
    normalizedPath
    pathExists := stat.isSome
    type := stat
    warnings
    inWorkspace := strStartsWith normalizedPath workspaceRoot
    matchesAllowedPattern := findFirstMatch env.glob settings.allowedPaths normalizedPath filePath
    matchesDeniedPattern := findFirstMatch env.glob settings.deniedPaths normalizedPath filePath }

/-- Mutable state of `SecurityManager`: the volatile session map and the
durable stored list (the `claudeCodeChat.permissions` blob), plus the
current settings. -/
structure SecurityState where
  sessionPermissions : List (String × SecurityPermission)
  storedPermissions : List SecurityPermission
  settings : SecuritySettings
deriving DecidableEq, Repr

/-- `SecurityManager.getPermissionKey`. -/
def getPermissionKey (filePath : String) (t : PermissionType) : String :=
  filePath ++ ":" ++ t.str

/-- JS `Map.prototype.set` on the session association list. -/
def sessionSet (l : List (String × SecurityPermission)) (k : String)
    (v : SecurityPermission) : List (String × SecurityPermission) :=
  if l.any (fun p => p.1 == k) then
    l.map (fun p => if p.1 == k then (k, v) else p)
  else l ++ [(k, v)]

/-- `SecurityManager.findExistingPermission`: session permissions shadow
stored ones. -/
def findExistingPermission (st : SecurityState) (filePath : String)
    (t : PermissionType) : Option SecurityPermission :=
  match (st.sessionPermissions.find? (fun p => p.1 == getPermissionKey filePath t)).map Prod.snd with
  | some p => some p
  | none =>
    st.storedPermissions.find? (fun p => p.filePath == filePath && p.permissionType == t)

/-- `SecurityManager.isPermissionExpired` at the current time. -/
def isPermissionExpired (now : Nat) (p : SecurityPermission) : Bool :=
  match p.expiration with
  | none => false
  | some e => decide (e < now)

/-- `SecurityManager.createPermission`. -/
def createPermission (now : Nat) (settings : SecuritySettings) (req : PermissionRequest)
    (scope : PermissionScope) (autoGranted : Bool) : SecurityPermission :=
  { filePath := req.filePath
    permissionType := req.permissionType
    scope
    expiration :=
      if scope = PermissionScope.session then some (now + settings.sessionTimeout) else none
    reason := req.reason
    grantedAt := now
    autoGranted }

/-- `SecurityManager.storePermission`: appends to the durable store. -/
def storePermission (st : SecurityState) (p : SecurityPermission) : SecurityState :=
  { st with storedPermissions := st.storedPermissions ++ [p] }

/-- The built-in `SAFE_PATHS` whitelist. -/
def SAFE_PATHS : List String :=
  ["~/.bashrc", "~/.bash_profile", "~/.zshrc", "~/.profile", "~/.*rc",
   "**/package.json", "**/tsconfig.json", "**/package-lock.json",
   "**/yarn.lock", "**/.gitignore", "**/.env.example"]

/-- `SecurityManager.isSafePath`. -/
def isSafePath (glob : String → String → Bool) (filePath : String) : Bool :=
  SAFE_PATHS.any (fun pat => glob filePath pat)

/-- Outcome of `requestPermission`: the thrown-or-returned result, the
updated manager state, and a ghost flag recording whether the interactive
permission dialog was shown. -/
structure RequestOutcome where
  result : Except SecurityError Bool
  state : SecurityState
  promptShown : Bool
deriving DecidableEq, Repr

/-- `SecurityManager.requestPermission`.  The decision ladder of the
source, in order: an invalid path throws `INVALID_PATH`; workspace paths
auto-grant with no stored record; the `workspace-only` level throws
`ACCESS_DENIED` outside the workspace; a matched deny pattern throws
`ACCESS_DENIED`; an unexpired existing grant auto-grants; a matched
allow pattern grants and persists a `workspace`-scoped record; a safe
path (when enabled) grants a volatile `session` record; `danger-mode`
grants a volatile `session` record; otherwise the interactive dialog is
shown and `userChoice` (`none` meaning deny) decides the outcome. -/
def requestPermission (env : FSEnv) (workspaceRoot : String) (now : Nat)
    (userChoice : Option PermissionScope) (st : SecurityState) (req : PermissionRequest) :
    RequestOutcome :=
  let validation := validatePath env st.settings workspaceRoot req.filePath
  if !validation.isValid then
    ⟨.error { message := "Invalid path: " ++ String.intercalate ", " validation.warnings
              code := SecurityErrorCode.INVALID_PATH
              filePath := req.filePath, permissionType := req.permissionType }, st, false⟩
  else if validation.inWorkspace then
    ⟨.ok true, st, false⟩
  else if st.settings.permissionLevel = SecurityLevel.workspaceOnly then
    ⟨.error { message := "Access denied: Security level is set to workspace-only"
              code := SecurityErrorCode.ACCESS_DENIED
              filePath := req.filePath, permissionType := req.permissionType }, st, false⟩
  else
    match validation.matchesDeniedPattern with
    | some pat =>
      ⟨.error { message := "Access denied: Path matches denied pattern: " ++ pat
                code := SecurityErrorCode.ACCESS_DENIED
                filePath := req.filePath, permissionType := req.permissionType }, st, false⟩
    | none =>
      let existing := findExistingPermission st req.filePath req.permissionType
      if (existing.map (fun p => !isPermissionExpired now p)).getD false then
        ⟨.ok true, st, false⟩
      else
        match validation.matchesAllowedPattern with
        | some _ =>
          let perm := createPermission now st.settings req PermissionScope.workspace false
          ⟨.ok true, storePermission st perm, false⟩
        | none =>
          let key := getPermissionKey req.filePath req.permissionType
          if st.settings.autoGrantSafePaths && isSafePath env.glob req.filePath then
            let perm := createPermission now st.settings req PermissionScope.session true
            ⟨.ok true, { st with sessionPermissions := sessionSet st.sessionPermissions key perm },
             false⟩
          else if st.settings.permissionLevel = SecurityLevel.dangerMode then
            let perm := createPermission now st.settings req PermissionScope.session true
            ⟨.ok true, { st with sessionPermissions := sessionSet st.sessionPermissions key perm },
             false⟩
          else
            match userChoice with
            | none => ⟨.ok false, st, true⟩
            | some scope =>
              let perm := createPermission now st.settings req scope false
              let st' :=
                if scope = PermissionScope.session then
                  { st with sessionPermissions := sessionSet st.sessionPermissions key perm }
                else storePermission st perm
              ⟨.ok true, st', true⟩

/-- `SecurityManager.clearAllPermissions`. -/
def clearAllPermissions (st : SecurityState) : SecurityState :=
  { st with sessionPermissions := [], storedPermissions := [] }

/-- `SecurityManager.getActivePermissions`: unexpired session plus stored
grants. -/
def getActivePermissions (now : Nat) (st : SecurityState) : List SecurityPermission :=
  ((st.sessionPermissions.map Prod.snd) ++ st.storedPermissions).filter
    (fun p => !isPermissionExpired now p)

/-- A partial `SecuritySettings` (the argument of `updateSettings`). -/
structure PartialSettings where
  permissionLevel : Option SecurityLevel := none
  allowedPaths : Option (List String) := none
  deniedPaths : Option (List String) := none
  auditLog : Option Bool := none
  sessionTimeout : Option Nat := none
  showFilePreview : Option Bool := none
  maxPreviewSize : Option Nat := none
  autoGrantSafePaths : Option Bool := none
deriving DecidableEq, Repr

/-- The spread `{ ...this.settings, ...newSettings }`. -/
def mergeSettings (s : SecuritySettings) (p : PartialSettings) : SecuritySettings :=
  { permissionLevel := p.permissionLevel.getD s.permissionLevel
    allowedPaths := p.allowedPaths.getD s.allowedPaths
    deniedPaths := p.deniedPaths.getD s.deniedPaths
    auditLog := p.auditLog.getD s.auditLog
    sessionTimeout := p.sessionTimeout.getD s.sessionTimeout
    showFilePreview := p.showFilePreview.getD s.showFilePreview
    maxPreviewSize := p.maxPreviewSize.getD s.maxPreviewSize
    autoGrantSafePaths := p.autoGrantSafePaths.getD s.autoGrantSafePaths }

/-- `SecurityManager.updateSettings`: merges the partial over the current
settings and, when the partial sets the level to `workspace-only`, clears
all permissions in the same call. -/
def updateSettings (st : SecurityState) (p : PartialSettings) : SecurityState :=
  let st' := { st with settings := mergeSettings st.settings p }
  if p.permissionLevel = some SecurityLevel.workspaceOnly then clearAllPermissions st'
  else st'

end Security

namespace MCPSync

/-- A CLI server entry used by the concrete state checks: inactive. -/
def c1srv : MCPServer :=
  { name := "alpha", command := "run-a", args := [], env := [], source := Source.cli
    isActive := false }

/-- Manager state with one inactive CLI server and a fresh sync state. -/
def c1m : ManagerState :=
  { syncState := some (defaultSyncState 0), cliServers := [c1srv]
    extensionServers := [], storage := ⟨none, false⟩ }

/-- The state after enabling sync-all on `c1m`. -/
def c1m1 : ManagerState := (setSyncAll 1 true c1m).toOption.getD c1m

/-- The state after then disabling sync-all on `c1m1`. -/
def c1m2 : ManagerState := (setSyncAll 2 false c1m1).toOption.getD c1m

/-- A CLI config file with one server entry. -/
def c2cfg : ClaudeCLIConfig :=
  { mcpServers := some [("alpha", { command := "run-a", args := [], env := [] })] }

/-- The readable, well-formed file holding `c2cfg`. -/
def c2file : CLIFile := some (.ok c2cfg)

/-- Manager state with a fresh sync state and no servers yet. -/
def c2m0 : ManagerState :=
  { syncState := some (defaultSyncState 0), cliServers := []
    extensionServers := [], storage := ⟨none, false⟩ }

/-- A sync state already carrying the hash of `c2cfg`. -/
def c2ss : MCPSyncState := { defaultSyncState 0 with cliConfigHash := calculateConfigHash c2cfg }

/-- Manager state whose recorded hash matches `c2cfg` (an unchanged file). -/
def c2m1 : ManagerState :=
  { syncState := some c2ss, cliServers := [], extensionServers := [], storage := ⟨none, false⟩ }

/-- Manager state whose storage layer fails on every write. -/
def c6m : ManagerState :=
  { syncState := some (defaultSyncState 0), cliServers := [c1srv]
    extensionServers := [], storage := ⟨none, true⟩ }

/-- A CLI-sourced server named `alpha`. -/
def c7cli : MCPServer :=
  { name := "alpha", command := "run-cli", args := [], env := [], source := Source.cli
    isActive := true }

/-- An extension-sourced server also named `alpha`, different command. -/
def c7ext : MCPServer :=
  { name := "alpha", command := "run-ext", args := [], env := [], source := Source.extension
    isActive := true }

/-- Manager state holding the conflicting pair `c7cli`/`c7ext`. -/
def c7m : ManagerState :=
  { syncState := none, cliServers := [c7cli], extensionServers := [c7ext]
    storage := ⟨none, false⟩ }

/-- Manager state with one CLI server, used for the degraded-read checks. -/
def c8m : ManagerState :=
  { syncState := some (defaultSyncState 0), cliServers := [c1srv]
    extensionServers := [], storage := ⟨none, false⟩ }

end MCPSync

namespace Security

/-- Concrete environment: empty filesystem, glob matcher that matches
nothing. -/
def cEnv : FSEnv :=
  { homeDir := "/home/u", cwd := "/", lstat := fun _ => none, glob := fun _ _ => false }

/-- Concrete settings at the `contextual` level with empty pattern lists. -/
def cSettings : SecuritySettings :=
  { permissionLevel := SecurityLevel.contextual, allowedPaths := [], deniedPaths := []
    auditLog := true, sessionTimeout := 100, showFilePreview := false
    maxPreviewSize := 1000, autoGrantSafePaths := false }

/-- Security state with no grants at all. -/
def c3st : SecurityState :=
  { sessionPermissions := [], storedPermissions := [], settings := cSettings }

/-- Request for a path that normalizes into the workspace but carries a
`./` traversal sequence. -/
def c3reqDirty : PermissionRequest :=
  { filePath := "/ws/./a", permissionType := PermissionType.read, reason := "edit"
    requestedBy := "tool" }

/-- Request for a clean path inside the workspace. -/
def c3reqClean : PermissionRequest :=
  { filePath := "/ws/a", permissionType := PermissionType.read, reason := "edit"
    requestedBy := "tool" }

/-- Request for a clean path in a sibling directory whose name extends the
workspace-root string. -/
def c9reqSibling : PermissionRequest :=
  { filePath := "/workspace-other/x", permissionType := PermissionType.read
    reason := "edit", requestedBy := "tool" }

/-- Request whose raw path carries `..` and normalizes to the sibling
directory. -/
def c9reqTraversal : PermissionRequest :=
  { filePath := "/workspace/../workspace-other/x", permissionType := PermissionType.read
    reason := "edit", requestedBy := "tool" }

/-- A durable, never-expiring grant for a path outside the workspace. -/
def c4grant : SecurityPermission :=
  { filePath := "/out/a", permissionType := PermissionType.read, scope := PermissionScope.workspace
    expiration := none, reason := "edit", grantedAt := 0, autoGranted := false }

/-- Security state holding `c4grant` under the `workspace-only` level. -/
def c4stStrict : SecurityState :=
  { sessionPermissions := [], storedPermissions := [c4grant]
    settings := { cSettings with permissionLevel := SecurityLevel.workspaceOnly } }

/-- Security state holding `c4grant` under the `contextual` level. -/
def c4st : SecurityState :=
  { sessionPermissions := [], storedPermissions := [c4grant], settings := cSettings }

/-- Request matching `c4grant`. -/
def c4req : PermissionRequest :=
  { filePath := "/out/a", permissionType := PermissionType.read, reason := "edit"
    requestedBy := "tool" }

/-- A session grant used to populate the volatile store. -/
def c5sess : SecurityPermission :=
  { filePath := "/out/b", permissionType := PermissionType.write, scope := PermissionScope.session
    expiration := some 50, reason := "edit", grantedAt := 0, autoGranted := true }

/-- Security state holding one session grant and one durable grant. -/
def c5st : SecurityState :=
  { sessionPermissions := [("/out/b:write", c5sess)], storedPermissions := [c4grant]
    settings := cSettings }

/-- Request whose raw path carries `..` while staying inside the
workspace. -/
def c10req : PermissionRequest :=
  { filePath := "/ws/../ws/a", permissionType := PermissionType.read
    reason := "edit", requestedBy := "tool" }

end Security

namespace MCPSync

/-- Persisting the sync state never touches the in-memory CLI server
list. -/
theorem saveSyncState_cliServers (now : Nat) (m : ManagerState) :
    (saveSyncState now m).cliServers = m.cliServers := by
  unfold saveSyncState
  cases m.syncState
  · rfl
  · dsimp only
    split <;> rfl

/-- Persisting the sync state only stamps `lastSyncTime` on it. -/
theorem saveSyncState_syncState (now : Nat) (m : ManagerState) :
    (saveSyncState now m).syncState
      = m.syncState.map (fun ss => { ss with lastSyncTime := now }) := by
  cases h : m.syncState with
  | none =>
    simp only [saveSyncState, h]
    rfl
  | some ss =>
    simp only [saveSyncState, h]
    split <;> rfl

/-- With a failing storage layer, persisting leaves the storage exactly as
it was: the error is caught inside `saveSyncState`. -/
theorem saveSyncState_storage_failing (now : Nat) (m : ManagerState)
    (h : m.storage.failing = true) :
    (saveSyncState now m).storage = m.storage := by
  unfold saveSyncState
  cases hss : m.syncState
  · rfl
  · simp only [Storage.update, h]
    rfl

/-- Shape of the state after `setSyncAll true`: every CLI server is marked
active and the active-set is overwritten with the full CLI name list. -/
theorem setSyncAll_true_shape (now : Nat) (m m₁ : ManagerState)
    (h : setSyncAll now true m = .ok m₁) :
    ∃ l : List MCPServer,
      m₁.cliServers = l.map (fun s => { s with isActive := true }) ∧
      ∃ ssX, m₁.syncState = some ssX ∧
        ssX.activeCliServers = l.map (fun s => s.name) := by
  simp only [setSyncAll, if_true] at h
  rw [Except.ok.injEq] at h
  subst h
  refine ⟨(if m.syncState.isNone then initSyncState now m else m).cliServers, ?_, ?_⟩
  · rw [saveSyncState_cliServers]
  · rw [saveSyncState_syncState]
    exact ⟨_, rfl, rfl⟩

/-- Shape of the state after `setSyncAll false`: each CLI server's flag is
set from the current active-set. -/
theorem setSyncAll_false_shape (now : Nat) (m₁ m₂ : ManagerState) (ssF : MCPSyncState)
    (hss : m₁.syncState = some ssF)
    (h : setSyncAll now false m₁ = .ok m₂) :
    m₂.cliServers = m₁.cliServers.map
      (fun s => { s with isActive := ssF.activeCliServers.contains s.name }) := by
  simp only [setSyncAll, hss, Option.isNone_some, Option.getD_some, Bool.false_eq_true,
    if_false, reduceIte] at h
  rw [Except.ok.injEq] at h
  subst h
  rw [saveSyncState_cliServers]

/-- C1 (amended): `setSyncAll true` overwrites the active-set with the full
CLI name list, so a following `setSyncAll false` leaves every CLI entry's
active flag `true` instead of restoring the pre-enable per-entry
selections. -/
theorem setSyncAll_round_trip_all_active (now₁ now₂ : Nat) (m m₁ m₂ : ManagerState)
    (h₁ : setSyncAll now₁ true m = .ok m₁)
    (h₂ : setSyncAll now₂ false m₁ = .ok m₂) :
    ∀ s ∈ m₂.cliServers, s.isActive = true := by
  obtain ⟨l, hcli, ssX, hss, hact⟩ := setSyncAll_true_shape now₁ m m₁ h₁
  have hd := setSyncAll_false_shape now₂ m₁ m₂ ssX hss h₂
  intro s hs
  rw [hd] at hs
  obtain ⟨t, ht, rfl⟩ := List.mem_map.mp hs
  rw [hcli] at ht
  obtain ⟨u, hu, rfl⟩ := List.mem_map.mp ht
  show ssX.activeCliServers.contains _ = true
  rw [hact]
  have hm : u.name ∈ l.map (fun s => s.name) := List.mem_map_of_mem _ hu
  exact List.elem_eq_true_of_mem hm

/-- C1 counterexample: a state whose single CLI entry is inactive; after
`setSyncAll true` then `setSyncAll false` the entry is active, so the
round trip does not restore the pre-enable flags. -/
theorem setSyncAll_round_trip_not_restored :
    c1m.cliServers.map MCPServer.isActive = [false] ∧
    ((setSyncAll 1 true c1m).bind (setSyncAll 2 false)).map
      (fun mm => mm.cliServers.map MCPServer.isActive) = .ok [true] := by
  exact ⟨rfl, by decide⟩

/-- Witness for the amended C1 theorem at a concrete state. -/
theorem setSyncAll_round_trip_witness :
    setSyncAll 1 true c1m = .ok c1m1 ∧ setSyncAll 2 false c1m1 = .ok c1m2 ∧
    ∀ s ∈ c1m2.cliServers, s.isActive = true :=
  ⟨by decide, by decide,
    setSyncAll_round_trip_all_active 1 2 c1m c1m1 c1m2 (by decide) (by decide)⟩

/-- C2 (amended): a refresh whose config hashes to the recorded hash (the
unchanged-file case) still rebuilds the in-memory CLI entry list — the
hash comparison only selects a log message — and the rebuild recomputes
every per-entry active flag via `getServerActiveState`. -/
theorem refresh_rebuilds_despite_unchanged_hash (now : Nat) (file : CLIFile)
    (m : ManagerState) (config : ClaudeCLIConfig)
    (servers : List (String × ServerConfig)) (ss : MCPSyncState)
    (hread : readCLIConfig file = some config)
    (hservers : config.mcpServers = some servers)
    (hss : m.syncState = some ss)
    (hhash : ss.cliConfigHash = calculateConfigHash config) :
    (refreshCLIServers now file m).map RefreshOut.rebuiltList = .ok true ∧
    (refreshCLIServers now file m).map (fun r => r.state.cliServers)
      = .ok (servers.map (buildCliServer m.syncState)) := by
  simp only [refreshCLIServers, hread, hservers, hss]
  constructor
  · rfl
  · simp only [Except.map]
    rw [Except.ok.injEq, saveSyncState_cliServers]

/-- C2 counterexample: after a first refresh records the config hash, a
second refresh of the very same file still reports `rebuiltList = true`. -/
theorem refresh_second_call_still_rebuilds :
    (refreshCLIServers 0 c2file c2m0).map
        (fun r => r.state.syncState.map MCPSyncState.cliConfigHash)
      = .ok (some (calculateConfigHash c2cfg)) ∧
    ((refreshCLIServers 0 c2file c2m0).bind
        (fun r => refreshCLIServers 1 c2file r.state)).map RefreshOut.rebuiltList
      = .ok true := by
  exact ⟨by decide, by decide⟩

/-- Witness for the amended C2 theorem at a concrete unchanged file. -/
theorem refresh_rebuilds_witness :
    readCLIConfig c2file = some c2cfg ∧
    c2cfg.mcpServers = some [("alpha", { command := "run-a", args := [], env := [] })] ∧
    c2m1.syncState = some c2ss ∧
    c2ss.cliConfigHash = calculateConfigHash c2cfg ∧
    ((refreshCLIServers 1 c2file c2m1).map RefreshOut.rebuiltList = .ok true ∧
     (refreshCLIServers 1 c2file c2m1).map (fun r => r.state.cliServers)
       = .ok ([("alpha", ({ command := "run-a", args := [], env := [] } : ServerConfig))].map
           (buildCliServer c2m1.syncState))) :=
  ⟨rfl, rfl, rfl, rfl,
    refresh_rebuilds_despite_unchanged_hash 1 c2file c2m1 c2cfg _ c2ss rfl rfl rfl rfl⟩

/-- C6 (amended): a storage-layer failure while persisting the sync state
is caught inside `saveSyncState` and only logged; `toggleServer` and
`setSyncAll` complete without a rejection and the storage (blob included)
keeps its previous value, so the caller never observes the failure. -/
theorem save_failure_swallowed (now : Nat) (serverName : String) (b : Bool)
    (m : ManagerState) (hfail : m.storage.failing = true) :
    (toggleServer now serverName b m).map ManagerState.storage = .ok m.storage ∧
    (setSyncAll now b m).map ManagerState.storage = .ok m.storage ∧
    (saveSyncState now m).storage = m.storage := by
  have hm' : (if m.syncState.isNone then initSyncState now m else m).storage = m.storage := by
    split
    · exact saveSyncState_storage_failing now _ hfail
    · rfl
  have hm'f : (if m.syncState.isNone then initSyncState now m else m).storage.failing = true := by
    rw [hm']; exact hfail
  refine ⟨?_, ?_, saveSyncState_storage_failing now m hfail⟩
  · simp only [toggleServer, Except.map]
    rw [Except.ok.injEq, saveSyncState_storage_failing]
    · exact hm'
    · exact hm'f
  · cases b
    · simp only [setSyncAll, if_false, Bool.false_eq_true, reduceIte, Except.map]
      rw [Except.ok.injEq, saveSyncState_storage_failing]
      · exact hm'
      · exact hm'f
    · simp only [setSyncAll, if_true, Except.map]
      rw [Except.ok.injEq, saveSyncState_storage_failing]
      · exact hm'
      · exact hm'f

/-- C6 counterexample: with a failing storage layer, `toggleServer`
returns a successful result — nothing was persisted (blob still empty),
the in-memory state was updated, and no error reaches the caller. -/
theorem toggle_storage_failure_silent :
    c6m.storage.failing = true ∧
    (toggleServer 5 "alpha" true c6m).map (fun r => r.storage.blob) = .ok none ∧
    (toggleServer 5 "alpha" true c6m).map
        (fun r => r.syncState.map MCPSyncState.activeCliServers) = .ok (some ["alpha"]) := by
  exact ⟨rfl, by decide, by decide⟩

/-- Witness for the amended C6 theorem at a concrete failing store. -/
theorem save_failure_swallowed_witness :
    c6m.storage.failing = true ∧
    ((toggleServer 4 "beta" false c6m).map ManagerState.storage = .ok c6m.storage ∧
     (setSyncAll 4 false c6m).map ManagerState.storage = .ok c6m.storage ∧
     (saveSyncState 4 c6m).storage = c6m.storage) :=
  ⟨rfl, save_failure_swallowed 4 "beta" false c6m rfl⟩

/-- The name of a CLI status row is the server's name. -/
theorem cliStatus_name (m : ManagerState) (s : MCPServer) : (cliStatus m s).name = s.name := rfl

/-- One extension step preserves any satisfied row predicate. -/
theorem extStep_any (m : ManagerState) (acc : List MCPServerStatus) (e : MCPServer)
    (p : MCPServerStatus → Bool) (h : acc.any p = true) :
    (extStep m acc e).any p = true := by
  unfold extStep
  split
  · exact h
  · rw [List.any_append]
    simp [h]

/-- One extension step never adds a second row for a name that is already
present. -/
theorem extStep_filter (m : ManagerState) (acc : List MCPServerStatus) (e : MCPServer)
    (n : String) (h : acc.any (fun t => t.name == n) = true) :
    (extStep m acc e).filter (fun t => t.name == n) = acc.filter (fun t => t.name == n) := by
  unfold extStep
  split
  · rfl
  · rename_i hfind
    have hne : (e.name == n) = false := by
      by_contra hc
      rw [Bool.not_eq_false, beq_iff_eq] at hc
      subst hc
      obtain ⟨t, htmem, htp⟩ := List.any_eq_true.mp h
      exact hfind (List.find?_isSome.mpr ⟨t, htmem, htp⟩)
    rw [List.filter_append]
    simp [hne]

/-- The extension pass of `getAllServers` leaves the rows of an
already-present name untouched. -/
theorem extFold_filter_preserved (m : ManagerState) (n : String) (exts : List MCPServer) :
    ∀ acc : List MCPServerStatus,
      acc.any (fun t => t.name == n) = true →
      (exts.foldl (extStep m) acc).filter (fun t => t.name == n)
        = acc.filter (fun t => t.name == n) := by
  induction exts with
  | nil => intro acc _; rfl
  | cons e exts ih =>
    intro acc h
    rw [List.foldl_cons, ih _ (extStep_any m acc e _ h), extStep_filter m acc e n h]

/-- Among CLI rows with pairwise distinct names, the rows named `n` are
exactly the row of the member named `n`. -/
theorem cli_rows_filter (m : ManagerState) (n : String) (l : List MCPServer)
    (cliS : MCPServer) :
    (l.map MCPServer.name).Nodup → cliS ∈ l → cliS.name = n →
    (l.map (cliStatus m)).filter (fun t => t.name == n) = [cliStatus m cliS] := by
  induction l with
  | nil => intro _ hmem _; cases hmem
  | cons a l ih =>
    intro hnodup hmem hname
    rw [List.map_cons, List.nodup_cons] at hnodup
    obtain ⟨hnotin, hnd⟩ := hnodup
    rw [List.map_cons, List.filter_cons]
    rcases List.mem_cons.mp hmem with rfl | hmem'
    · rw [if_pos (by simp [cliStatus_name, hname])]
      have htail : (l.map (cliStatus m)).filter (fun t => t.name == n) = [] := by
        rw [List.filter_eq_nil_iff]
        intro t htmem
        obtain ⟨u, humem, rfl⟩ := List.mem_map.mp htmem
        have hun : u.name ≠ n := by
          intro hc
          apply hnotin
          have hau : cliS.name = u.name := by rw [hname, hc]
          rw [hau]
          exact List.mem_map_of_mem MCPServer.name humem
        simp [cliStatus_name, hun]
      rw [htail]
    · have hanotn : (a.name == n) = false := by
        rw [beq_eq_false_iff_ne]
        intro hc
        apply hnotin
        rw [hc, ← hname]
        exact List.mem_map_of_mem MCPServer.name hmem'
      rw [if_neg (by simp [cliStatus_name, hanotn])]
      exact ih hnd hmem' hname

/-- C7: when a CLI-sourced entry and an extension-sourced entry share a
name (with different commands), the unified view carries exactly one row
for that name, the row derived from the CLI entry (source `cli`), and
that row reports `hasConflict = true`. -/
theorem unified_view_cli_precedence (m : ManagerState) (n : String) (cliS extS : MCPServer)
    (hnodup : (m.cliServers.map MCPServer.name).Nodup)
    (hcliMem : cliS ∈ m.cliServers) (hcliName : cliS.name = n)
    (hextMem : extS ∈ m.extensionServers) (hextName : extS.name = n)
    (hcmd : cliS.command ≠ extS.command) :
    (getAllServers m).filter (fun t => t.name == n) = [cliStatus m cliS] ∧
    (cliStatus m cliS).source = Source.cli ∧
    (cliStatus m cliS).hasConflict = true := by
  have hbase := cli_rows_filter m n m.cliServers cliS hnodup hcliMem hcliName
  have hany : (m.cliServers.map (cliStatus m)).any (fun t => t.name == n) = true := by
    refine List.any_eq_true.mpr ⟨cliStatus m cliS, List.mem_map_of_mem _ hcliMem, ?_⟩
    simp [cliStatus_name, hcliName]
  refine ⟨?_, rfl, ?_⟩
  · unfold getAllServers
    rw [extFold_filter_preserved m n m.extensionServers _ hany, hbase]
  · show hasConflictWithExtension m cliS.name = true
    refine List.any_eq_true.mpr ⟨extS, hextMem, ?_⟩
    simp [hextName, hcliName]

/-- Witness for C7 at a concrete conflicting pair. -/
theorem unified_view_cli_precedence_witness :
    (c7m.cliServers.map MCPServer.name).Nodup ∧
    c7cli ∈ c7m.cliServers ∧ c7cli.name = "alpha" ∧
    c7ext ∈ c7m.extensionServers ∧ c7ext.name = "alpha" ∧
    c7cli.command ≠ c7ext.command ∧
    ((getAllServers c7m).filter (fun t => t.name == "alpha") = [cliStatus c7m c7cli] ∧
     (cliStatus c7m c7cli).source = Source.cli ∧
     (cliStatus c7m c7cli).hasConflict = true) :=
  ⟨by decide, by decide, by decide, by decide, by decide, by decide,
    unified_view_cli_precedence c7m "alpha" c7cli c7ext (by decide) (by decide) (by decide)
      (by decide) (by decide) (by decide)⟩

/-- C8: for a missing or malformed CLI source file the read degrades to
`none` and the refresh succeeds (no rejection), leaving the CLI entry
list empty and the rest of the state untouched. -/
theorem refresh_missing_or_malformed_empty (now : Nat) (file : CLIFile) (m : ManagerState)
    (h : file = none ∨ file = some (.error ())) :
    readCLIConfig file = none ∧
    refreshCLIServers now file m = .ok ⟨{ m with cliServers := [] }, false⟩ := by
  rcases h with rfl | rfl <;> exact ⟨rfl, rfl⟩

/-- Witness for C8 at a concrete malformed file. -/
theorem refresh_missing_or_malformed_witness :
    ((some (.error ()) : CLIFile) = none ∨ (some (.error ()) : CLIFile) = some (.error ())) ∧
    (readCLIConfig (some (.error ())) = none ∧
     refreshCLIServers 3 (some (.error ())) c8m = .ok ⟨{ c8m with cliServers := [] }, false⟩) :=
  ⟨Or.inr rfl, refresh_missing_or_malformed_empty 3 (some (.error ())) c8m (Or.inr rfl)⟩

end MCPSync

namespace Security

/-- C3 (amended): for every request whose path validation yields no
warnings and whose normalized path lies inside the workspace root,
`requestPermission` returns `true` with the state unchanged (no durable
or session grant created) and without showing the interactive prompt. -/
theorem workspace_path_auto_granted
    (env : FSEnv) (root : String) (now : Nat) (choice : Option PermissionScope)
    (st : SecurityState) (req : PermissionRequest)
    (hvalid : (validatePath env st.settings root req.filePath).isValid = true)
    (hin : (validatePath env st.settings root req.filePath).inWorkspace = true) :
    requestPermission env root now choice st req =
      { result := Except.ok true, state := st, promptShown := false } := by
  simp only [requestPermission, hvalid, hin]
  simp

/-- C3 counterexample: the path `/ws/./a` normalizes to `/ws/a`, inside
the workspace root `/ws`, yet `requestPermission` throws `INVALID_PATH`
because of the `./` traversal warning instead of returning `true`. -/
theorem workspace_dirty_path_rejected :
    (validatePath cEnv c3st.settings "/ws" "/ws/./a").normalizedPath = "/ws/a" ∧
    (validatePath cEnv c3st.settings "/ws" "/ws/./a").inWorkspace = true ∧
    (requestPermission cEnv "/ws" 0 none c3st c3reqDirty).result =
      Except.error
        { message := "Invalid path: Path contains potentially dangerous traversal sequences"
          code := SecurityErrorCode.INVALID_PATH
          filePath := "/ws/./a", permissionType := PermissionType.read } := by
  refine ⟨by decide, by decide, by decide⟩

/-- Witness for the amended C3 theorem at a clean in-workspace path. -/
theorem workspace_path_auto_granted_witness :
    (validatePath cEnv c3st.settings "/ws" c3reqClean.filePath).isValid = true ∧
    (validatePath cEnv c3st.settings "/ws" c3reqClean.filePath).inWorkspace = true ∧
    requestPermission cEnv "/ws" 0 none c3st c3reqClean =
      { result := Except.ok true, state := c3st, promptShown := false } :=
  ⟨by decide, by decide, workspace_path_auto_granted cEnv "/ws" 0 none c3st c3reqClean
    (by decide) (by decide)⟩

/-- C9 (amended): workspace membership is a plain string-prefix test on
the normalized path, so any warning-free path whose normalized form
merely begins with the root string — including sibling directories such
as `/workspace-other/x` under root `/workspace` — is reported
`inWorkspace = true` and auto-granted without a prompt and without a
persisted record. -/
theorem prefix_membership_auto_grant
    (env : FSEnv) (root : String) (now : Nat) (choice : Option PermissionScope)
    (st : SecurityState) (req : PermissionRequest)
    (hwarn : (validatePath env st.settings root req.filePath).warnings = [])
    (hpre : strStartsWith (validatePath env st.settings root req.filePath).normalizedPath root
      = true) :
    (validatePath env st.settings root req.filePath).inWorkspace = true ∧
    requestPermission env root now choice st req =
      { result := Except.ok true, state := st, promptShown := false } := by
  have hin : (validatePath env st.settings root req.filePath).inWorkspace = true := by
    simp only [validatePath] at hpre ⊢
    exact hpre
  have hvalid : (validatePath env st.settings root req.filePath).isValid = true := by
    have hiv : (validatePath env st.settings root req.filePath).isValid
        = (validatePath env st.settings root req.filePath).warnings.isEmpty := rfl
    rw [hiv, hwarn]
    rfl
  refine ⟨hin, ?_⟩
  simp only [requestPermission, hvalid, hin]
  simp

/-- C9 counterexample: `/workspace/../workspace-other/x` normalizes to
`/workspace-other/x`, which begins with the root string `/workspace`, yet
the request is rejected with `INVALID_PATH` because of the `..` in the
raw path — the prefix claim does not hold for every such path. -/
theorem prefix_membership_traversal_rejected :
    (validatePath cEnv c3st.settings "/workspace" c9reqTraversal.filePath).normalizedPath
      = "/workspace-other/x" ∧
    strStartsWith (validatePath cEnv c3st.settings "/workspace"
        c9reqTraversal.filePath).normalizedPath "/workspace" = true ∧
    (requestPermission cEnv "/workspace" 0 none c3st c9reqTraversal).result =
      Except.error
        { message := "Invalid path: Path contains potentially dangerous traversal sequences"
          code := SecurityErrorCode.INVALID_PATH
          filePath := "/workspace/../workspace-other/x", permissionType := PermissionType.read } := by
  refine ⟨by decide, by decide, by decide⟩

/-- Witness for the amended C9 theorem at the sibling-directory path. -/
theorem prefix_membership_auto_grant_witness :
    (validatePath cEnv c3st.settings "/workspace" c9reqSibling.filePath).warnings = [] ∧
    strStartsWith (validatePath cEnv c3st.settings "/workspace"
        c9reqSibling.filePath).normalizedPath "/workspace" = true ∧
    ((validatePath cEnv c3st.settings "/workspace" c9reqSibling.filePath).inWorkspace = true ∧
     requestPermission cEnv "/workspace" 0 none c3st c9reqSibling =
       { result := Except.ok true, state := c3st, promptShown := false }) :=
  ⟨by decide, by decide, prefix_membership_auto_grant cEnv "/workspace" 0 none c3st c9reqSibling
    (by decide) (by decide)⟩

/-- C4 (amended): when the path validates cleanly, no earlier branch
throws (the path is in the workspace, or the level is not
`workspace-only` and no deny pattern matches), and the lookup — session
grants shadow durable ones — yields an unexpired grant for
(path, kind), `requestPermission` returns `true` with the state unchanged
(no duplicate grant) and without showing the prompt. -/
theorem existing_grant_reused
    (env : FSEnv) (root : String) (now : Nat) (choice : Option PermissionScope)
    (st : SecurityState) (req : PermissionRequest) (p : SecurityPermission)
    (hvalid : (validatePath env st.settings root req.filePath).isValid = true)
    (hbranch : (validatePath env st.settings root req.filePath).inWorkspace = true ∨
      (st.settings.permissionLevel ≠ SecurityLevel.workspaceOnly ∧
       (validatePath env st.settings root req.filePath).matchesDeniedPattern = none))
    (hfind : findExistingPermission st req.filePath req.permissionType = some p)
    (hexp : isPermissionExpired now p = false) :
    requestPermission env root now choice st req =
      { result := Except.ok true, state := st, promptShown := false } := by
  rcases hbranch with hin | ⟨hlvl, hden⟩
  · simp only [requestPermission, hvalid, hin]
    simp
  · by_cases hin : (validatePath env st.settings root req.filePath).inWorkspace = true
    · simp only [requestPermission, hvalid, hin]
      simp
    · simp only [Bool.not_eq_true] at hin
      simp only [requestPermission, hvalid, hin, hden, hfind, hexp]
      simp [hlvl, hexp]

/-- C4 counterexample: a non-expired durable grant for `/out/a` is on
record, yet under the `workspace-only` level a repeated request for
`/out/a` throws `ACCESS_DENIED` instead of returning `true` — the
level check runs before the existing-grant lookup. -/
theorem existing_grant_blocked_by_level :
    findExistingPermission c4stStrict "/out/a" PermissionType.read = some c4grant ∧
    isPermissionExpired 7 c4grant = false ∧
    (requestPermission cEnv "/ws" 7 none c4stStrict c4req).result =
      Except.error
        { message := "Access denied: Security level is set to workspace-only"
          code := SecurityErrorCode.ACCESS_DENIED
          filePath := "/out/a", permissionType := PermissionType.read } := by
  refine ⟨by decide, by decide, by decide⟩

/-- Witness for the amended C4 theorem at a concrete stored grant. -/
theorem existing_grant_reused_witness :
    (validatePath cEnv c4st.settings "/ws" c4req.filePath).isValid = true ∧
    (c4st.settings.permissionLevel ≠ SecurityLevel.workspaceOnly ∧
     (validatePath cEnv c4st.settings "/ws" c4req.filePath).matchesDeniedPattern = none) ∧
    findExistingPermission c4st c4req.filePath c4req.permissionType = some c4grant ∧
    isPermissionExpired 7 c4grant = false ∧
    requestPermission cEnv "/ws" 7 none c4st c4req =
      { result := Except.ok true, state := c4st, promptShown := false } :=
  ⟨by decide, ⟨by decide, by decide⟩, by decide, by decide,
    existing_grant_reused cEnv "/ws" 7 none c4st c4req c4grant (by decide)
      (Or.inr ⟨by decide, by decide⟩) (by decide) (by decide)⟩

/-- C5: an `updateSettings` whose partial sets the level to
`workspace-only` merges the provided fields over the current settings and
clears both the session and the durable grant stores in the same call, so
`getActivePermissions` returns the empty list afterwards. -/
theorem updateSettings_workspace_only_clears
    (st : SecurityState) (p : PartialSettings) (now : Nat)
    (h : p.permissionLevel = some SecurityLevel.workspaceOnly) :
    (updateSettings st p).settings = mergeSettings st.settings p ∧
    getActivePermissions now (updateSettings st p) = [] := by
  simp only [updateSettings, h, clearAllPermissions, getActivePermissions]
  simp

/-- Witness for C5 at a state holding a session and a durable grant. -/
theorem updateSettings_workspace_only_clears_witness :
    ({ permissionLevel := some SecurityLevel.workspaceOnly } : PartialSettings).permissionLevel
      = some SecurityLevel.workspaceOnly ∧
    ((updateSettings c5st { permissionLevel := some SecurityLevel.workspaceOnly }).settings
      = mergeSettings c5st.settings { permissionLevel := some SecurityLevel.workspaceOnly } ∧
     getActivePermissions 10
        (updateSettings c5st { permissionLevel := some SecurityLevel.workspaceOnly }) = []) :=
  ⟨rfl, updateSettings_workspace_only_clears c5st
    { permissionLevel := some SecurityLevel.workspaceOnly } 10 rfl⟩

/-- C10: a request whose raw path contains `..`, `./` or `.\`, or whose
normalized path is a symlink or an irregular node, gets a warning
appended, `isValid = false`, and `requestPermission` throws a typed error
with code `INVALID_PATH` — workspace membership does not rescue it. -/
theorem invalid_path_request_rejected
    (env : FSEnv) (root : String) (now : Nat) (choice : Option PermissionScope)
    (st : SecurityState) (req : PermissionRequest)
    (h : strContains req.filePath ".." = true ∨ strContains req.filePath "./" = true ∨
         strContains req.filePath ".\\" = true ∨
         env.lstat (validatePath env st.settings root req.filePath).normalizedPath
           = some FileType.symlink ∨
         env.lstat (validatePath env st.settings root req.filePath).normalizedPath
           = some FileType.other) :
    (validatePath env st.settings root req.filePath).warnings ≠ [] ∧
    (validatePath env st.settings root req.filePath).isValid = false ∧
    ∃ e, (requestPermission env root now choice st req).result = Except.error e ∧
      e.code = SecurityErrorCode.INVALID_PATH := by
  have hw : (validatePath env st.settings root req.filePath).warnings ≠ [] := by
    simp only [validatePath]
    rcases h with h | h | h | h | h
    · simp [h]
    · simp [h]
    · simp [h]
    · simp only [validatePath] at h
      simp [h]
    · simp only [validatePath] at h
      simp [h]
  have hv : (validatePath env st.settings root req.filePath).isValid = false := by
    simp only [validatePath] at hw ⊢
    simpa using hw
  refine ⟨hw, hv, ?_⟩
  simp only [requestPermission, hv]
  simp

/-- Witness for C10 at an in-workspace path carrying `..`. -/
theorem invalid_path_request_rejected_witness :
    strContains c10req.filePath ".." = true ∧
    ((validatePath cEnv c3st.settings "/ws" c10req.filePath).warnings ≠ [] ∧
     (validatePath cEnv c3st.settings "/ws" c10req.filePath).isValid = false ∧
     ∃ e, (requestPermission cEnv "/ws" 0 none c3st c10req).result = Except.error e ∧
       e.code = SecurityErrorCode.INVALID_PATH) :=
  ⟨by decide, invalid_path_request_rejected cEnv "/ws" 0 none c3st c10req (Or.inl (by decide))⟩

end Security
